import Mathlib

/-
Verification of GoSSHa (src/main.go): a multi-host SSH command runner /
file uploader. The Go source is shallowly embedded below: pure data flow
is translated to Lean functions, the file system and external processes
are passed in as explicit environment values, and stderr reporting is
collected as a list of message tags.
-/

namespace GoSSHa

/-! ## Byte strings and bytes.Contains (src/main.go line 127) -/

/-- Key-file contents are modelled as lists of characters (Go byte slices). -/
abbrev Bytes := List Char

/-- The marker searched for at src/main.go line 127: bytes.Contains(buf, []byte("ENCRYPTED")). -/
def encMarker : Bytes := ['E', 'N', 'C', 'R', 'Y', 'P', 'T', 'E', 'D']

/-- Go bytes.Contains(b, pat): pat occurs as a contiguous subslice of b.
Embedded as an executable scan over every start offset. -/
def bytesContains (b pat : Bytes) : Bool :=
  (List.range (b.length + 1)).any (fun i => (b.drop i).take pat.length == pat)

/-- Abstract statement that pat occurs contiguously inside b. -/
def OccursIn (pat b : Bytes) : Prop := ∃ s t, b = s ++ pat ++ t

/-! ## makeSigner (src/main.go lines 111-187)

makeSigner opens a key file, reads it, and if the bytes contain the
ENCRYPTED marker routes them through a temporary file and an external
ssh-keygen invocation; finally it parses the (possibly decrypted) bytes.
Each reportErrorToUser call site gets its own message tag.  The fallible
external world (file open/read, temp file stages, ssh-keygen) is an
explicit environment; the key parser is an oracle parameter. -/

/-- One stderr message per reportErrorToUser call site in makeSigner. -/
inductive Msg
  /-- line 115: could not parse (open error other than not-exist) -/
  | couldNotParseOpen
  /-- line 123: could not read the key file -/
  | couldNotRead
  /-- line 135: could not create temporary file -/
  | couldNotCreateTmp
  /-- line 143: the key is encrypted, using ssh-keygen to decrypt it -/
  | encryptedNotice
  /-- line 148: could not write encrypted key contents to temporary file -/
  | couldNotWriteTmp
  /-- line 154: could not close temporary file -/
  | couldNotCloseTmp
  /-- line 161: could not decrypt key (ssh-keygen failed) -/
  | couldNotDecrypt
  /-- line 167: cannot open back the temporary file -/
  | cannotOpenBack
  /-- line 182: could not parse the final key bytes -/
  | couldNotParseFinal
deriving DecidableEq

/-- Outcome of os.Open plus ioutil.ReadAll on the key file (lines 112-125). -/
inductive KeyOpen
  /-- os.Open fails and os.IsNotExist holds: the file is absent -/
  | absent
  /-- os.Open fails with some other error -/
  | openErr
  /-- os.Open succeeds but ioutil.ReadAll fails -/
  | readErr
  /-- the file was opened and fully read -/
  | content (buf : Bytes)

/-- Environment for the decryption branch (lines 127-178): which of the
fallible stages succeed, and what ssh-keygen leaves in the temp file. -/
structure DecryptEnv where
  /-- ioutil.TempFile (line 133) succeeds -/
  tmpCreated : Bool
  /-- tmpfp.Write(buf) (line 145) succeeds -/
  writeOk : Bool
  /-- tmpfp.Close() (line 152) succeeds -/
  closeOk : Bool
  /-- ssh-keygen (lines 158-159): some bytes = success, leaving those
  decrypted bytes in the temp file; none = non-zero exit -/
  keygenOut : Option Bytes
  /-- os.Open(tmpName) (line 165) succeeds -/
  reopenOk : Bool
  /-- the second ioutil.ReadAll (line 171) succeeds -/
  rereadOk : Bool

/-- What one makeSigner call produced: the signer (if any), the stderr
messages in order, whether the temporary file still exists after return,
and whether the encrypted (decryption) branch was entered. -/
structure SignerOutcome (α : Type) where
  signer : Option α
  msgs : List Msg
  tmpLeft : Bool
  decryptTried : Bool
deriving DecidableEq

/-- os.Remove on the temporary file, acting on its existence flag:
after a remove the file does not exist. -/
def osRemove (_st : Bool) : Bool := false

/-- ioutil.TempFile (line 133), acting on the existence flag of the
temporary file: after creation the file exists. -/
def tmpCreate (_st : Bool) : Bool := true

/-- The deferred cleanup registered at line 141 right after TempFile
succeeds: tmpfp.Close(); os.Remove(tmpName).  It runs on every return
from that point on (Go defer semantics). -/
def deferredCleanup (st : Bool) : Bool := osRemove st

/-- makeSigner (lines 111-187).  parse is the ssh.ParsePrivateKey oracle.
The temp-file existence flag is threaded explicitly: tmpCreate sets it at
line 133, every exit after that point applies deferredCleanup (line 141),
and the success path additionally applies the explicit os.Remove of
line 177 before the defer runs. -/
def makeSigner {α : Type} (parse : Bytes → Option α) (ko : KeyOpen)
    (env : DecryptEnv) : SignerOutcome α :=
  match ko with
  | KeyOpen.absent => ⟨none, [], false, false⟩
  | KeyOpen.openErr => ⟨none, [Msg.couldNotParseOpen], false, false⟩
  | KeyOpen.readErr => ⟨none, [Msg.couldNotRead], false, false⟩
  | KeyOpen.content buf =>
    if bytesContains buf encMarker then
      -- the decryption branch, lines 127-178
      if env.tmpCreated = false then
        -- line 135 report; TempFile failed, no temp file was created
        ⟨none, [Msg.couldNotCreateTmp], false, true⟩
      else
        -- the temp file now exists (tmpCreate); the deferred cleanup of
        -- line 141 runs on each of the returns below.
        let st := tmpCreate false
        -- line 143 notice is printed before the write.
        if env.writeOk = false then
          ⟨none, [Msg.encryptedNotice, Msg.couldNotWriteTmp],
           deferredCleanup st, true⟩
        else if env.closeOk = false then
          ⟨none, [Msg.encryptedNotice, Msg.couldNotCloseTmp],
           deferredCleanup st, true⟩
        else
          match env.keygenOut with
          | none =>
            ⟨none, [Msg.encryptedNotice, Msg.couldNotDecrypt],
             deferredCleanup st, true⟩
          | some dec =>
            if env.reopenOk = false then
              ⟨none, [Msg.encryptedNotice, Msg.cannotOpenBack],
               deferredCleanup st, true⟩
            else if env.rereadOk = false then
              -- line 173: plain return, no report
              ⟨none, [Msg.encryptedNotice], deferredCleanup st, true⟩
            else
              -- lines 176-177: explicit close and os.Remove, then the
              -- final parse of the decrypted bytes; the deferred cleanup
              -- still runs after the explicit remove.
              let st := deferredCleanup (osRemove st)
              match parse dec with
              | none => ⟨none, [Msg.encryptedNotice, Msg.couldNotParseFinal],
                         st, true⟩
              | some s => ⟨some s, [Msg.encryptedNotice], st, true⟩
    else
      -- unencrypted: parse buf directly (line 180)
      match parse buf with
      | none => ⟨none, [Msg.couldNotParseFinal], false, false⟩
      | some s => ⟨some s, [], false, false⟩

/-! ## makeKeyring (src/main.go lines 189-205) -/

/-- The external world seen by makeKeyring: the open/read outcome and the
decryption environment for each of the two default key files. -/
structure KeyringEnv where
  idRsa : KeyOpen
  rsaDec : DecryptEnv
  idDsa : KeyOpen
  dsaDec : DecryptEnv

/-- makeKeyring (lines 189-205): try both default key files in order,
keep the signers whose acquisition had no error, and wrap them into one
keyring ClientAuth.  The Go function returns nil only when the keys list
is empty, and that list is the literal two-element list, so the nil
branch is kept verbatim (it is dead).  none models a nil ssh.ClientAuth;
some signers models ssh.ClientAuthKeyring(&SignerContainer{signers}). -/
def makeKeyring {α : Type} (parse : Bytes → Option α) (env : KeyringEnv) :
    Option (List α) :=
  let keys := [(env.idRsa, env.rsaDec), (env.idDsa, env.dsaDec)]
  let signers := keys.foldl
    (fun acc k =>
      match (makeSigner parse k.1 k.2).signer with
      | some s => acc ++ [s]
      | none => acc) []
  if keys.length = 0 then none else some signers

/-- The stderr messages makeKeyring's two makeSigner calls emit, in file
order (id_rsa first, then id_dsa). -/
def makeKeyringMsgs {α : Type} (parse : Bytes → Option α) (env : KeyringEnv) :
    List Msg :=
  (makeSigner parse env.idRsa env.rsaDec).msgs ++
    (makeSigner parse env.idDsa env.dsaDec).msgs

/-! ## makeConfig (src/main.go lines 72-109)

makeConfig builds the ssh.ClientConfig: it optionally dials the SSH
agent (retrying transient errors forever, so only the terminal outcome
of the loop is modelled), appends an agent ClientAuth when the agent
offers at least one identity, and appends the keyring ClientAuth when
the keyring global is non-nil. -/

/-- Terminal outcome of the agent branch of makeConfig (lines 75-99).
The retry loop at lines 77-98 repeats only on transient dial errors, so
a terminating run ends in one of these states. -/
inductive AgentStep
  /-- SSH_AUTH_SOCK is empty: the whole branch is skipped -/
  | noSock
  /-- net.Dial ends with a non-transient error (reported, not fatal) -/
  | dialFail
  /-- dial succeeded but agent.RequestIdentities failed (reported) -/
  | identitiesErr
  /-- dial and RequestIdentities succeeded, returning n identities -/
  | identities (n : Nat)

/-- One ssh.ClientAuth entry of the assembled config. -/
inductive AuthMethod (α : Type)
  /-- ssh.ClientAuthAgent(agent), line 93 -/
  | agent
  /-- ssh.ClientAuthKeyring over the process keyring, line 102 -/
  | keyringAuth (signers : List α)
deriving DecidableEq

/-- The ssh.ClientConfig value built at lines 105-108. -/
structure ClientConfig (α : Type) where
  user : String
  auth : List (AuthMethod α)
deriving DecidableEq

/-- makeConfig (lines 72-109), given the terminal agent outcome and the
keyring global set by the startup code. -/
def makeConfig {α : Type} (agentRes : AgentStep) (keyring : Option (List α))
    (user : String) : ClientConfig α :=
  let clientAuth : List (AuthMethod α) :=
    match agentRes with
    | AgentStep.identities n =>
      if n > 0 then [AuthMethod.agent] else []
    | _ => []
  let clientAuth :=
    match keyring with
    | some s => clientAuth ++ [AuthMethod.keyringAuth s]
    | none => clientAuth
  ⟨user, clientAuth⟩

/-! ## SignerContainer (src/main.go lines 44-60)

Key and Sign guard only the upper bound (i >= len(t.signers)); a
negative index reaches the slice access and panics.  A panic is
modelled as none; a normal return as some of the (value, error) pair,
where Go zero values are none. -/

/-- One element of the keyring as the ssh library sees it: its public
key, and its Sign behaviour given randomness and data. -/
structure KeySigner where
  pubKey : Nat
  signRes : Nat → List Nat → Option (List Nat) × Option String

/-- SignerContainer.Key (lines 44-51).  Returns none on panic, otherwise
some (key, err); an index at or beyond the length returns the zero
values (none, none). -/
def containerKey (signers : List KeySigner) (i : Int) :
    Option (Option Nat × Option String) :=
  if (signers.length : Int) ≤ i then some (none, none)
  else if i < 0 then none
  else
    match signers.get? i.toNat with
    | some s => some (some s.pubKey, none)
    | none => none

/-- SignerContainer.Sign (lines 53-60), with the same bounds behaviour
as Key; in range it defers to the signer's own Sign. -/
def containerSign (signers : List KeySigner) (i : Int) (rnd : Nat)
    (data : List Nat) : Option (Option (List Nat) × Option String) :=
  if (signers.length : Int) ≤ i then some (none, none)
  else if i < 0 then none
  else
    match signers.get? i.toNat with
    | some s => some (s.signRes rnd data)
    | none => none

/-! ## Fan-out/fan-in dispatch: mssh and mscp (src/main.go lines 275-327)

Each dispatch spawns one goroutine per hostname; every goroutine sends
exactly one (hostname, payload) pair on the results channel, and the
collector pops exactly len(hostnames) pairs and writes them into the
map.  The channel's delivery order is an arbitrary interleaving, so the
collector is modelled over any permutation of the produced pairs.  The
Go map is modelled as a function to Option, updated per arrival. -/

/-- Go map assignment result[k] = v. -/
def mapUpd {β : Type} (m : String → Option β) (k : String) (v : β) :
    String → Option β :=
  fun x => if x = k then some v else m x

/-- The collection loop (lines 291-294 and 321-324): fold the arrived
pairs into the result map, starting from the empty map. -/
def collectLoop {β : Type} (arrivals : List (String × β)) :
    String → Option β :=
  arrivals.foldl (fun m p => mapUpd m p.1 p.2) (fun _ => none)

/-- The payload one mssh goroutine sends for its host (lines 280-288):
execute's result string on success, the literal marker on error.
exec maps a host to execute's (result, err) pair. -/
def msshPayload (exec : String → String × Option String) (host : String) :
    String :=
  match (exec host).2 with
  | some _ => "(error)\n"
  | none => (exec host).1

/-- The multiset of pairs the mssh goroutines put on the channel. -/
def msshPairs (exec : String → String × Option String)
    (hostnames : List String) : List (String × String) :=
  hostnames.map (fun h => (h, msshPayload exec h))

/-- mssh's result map (lines 275-297), given the channel delivery order. -/
def msshResult (arrivals : List (String × String)) : String → Option String :=
  collectLoop arrivals

/-- The multiset of pairs the mscp goroutines put on the channel
(lines 315-319): each host maps to uploadFile's error, modelled by the
upload oracle (none = nil error). -/
def mscpPairs (upload : String → Option String) (hostnames : List String) :
    List (String × Option String) :=
  hostnames.map (fun h => (h, upload h))

/-- mscp's result map (lines 299-327), given the channel delivery order. -/
def mscpResult (arrivals : List (String × Option String)) :
    String → Option (Option String) :=
  collectLoop arrivals

/-! ## Configuration-construction trace (src/main.go lines 207-221, 329-334)

main calls the startup routine (lines 329-334), which sets the user and
keyring globals by calling makeKeyring once, and then calls mssh or
mscp.  Each per-host goroutine calls getSession (line 207), and
getSession passes makeConfig() to ssh.Dial at line 210 — so makeConfig
runs once per host task, during dispatch, not once at startup.  The
trace records these construction events in program order; the per-host
events appear in an arbitrary interleaving (buildOrder), always after
dispatch has begun. -/

/-- Construction events of one program run. -/
inductive Ev
  /-- the startup routine assigned keyring = makeKeyring() (line 333) -/
  | keyringBuilt
  /-- mssh/mscp started spawning the per-host goroutines -/
  | dispatchStarted
  /-- getSession for this host called makeConfig() (line 210) -/
  | configBuilt (host : String)
deriving DecidableEq

/-- The event trace of a command-run invocation: startup builds the
keyring, then dispatch starts, then each host's goroutine builds its own
config when it connects; buildOrder is the order in which the goroutines
happen to reach line 210. -/
def runTrace (buildOrder : List String) : List Ev :=
  Ev.keyringBuilt :: Ev.dispatchStarted :: buildOrder.map Ev.configBuilt

/-- Whether an event is a makeConfig run. -/
def Ev.isConfig : Ev → Bool
  | Ev.configBuilt _ => true
  | _ => false

/-- Whether an event is the makeKeyring run. -/
def Ev.isKeyring : Ev → Bool
  | Ev.keyringBuilt => true
  | _ => false

/-- How many times makeConfig ran in a trace. -/
def configBuildCount (t : List Ev) : Nat :=
  t.countP Ev.isConfig

/-- How many times makeKeyring ran in a trace. -/
def keyringBuildCount (t : List Ev) : Nat :=
  t.countP Ev.isKeyring

/-! ## main's argument handling (src/main.go lines 336-368) -/

/-- What main decides to do from its arguments, before any network
activity. -/
inductive MainAct
  /-- usage message printed to stderr, then os.Exit(code); no dispatch -/
  | usageExit (msg : String) (code : Nat)
  /-- initialize then mscp source target hosts -/
  | doMscp (source target : String) (hosts : List String)
  /-- initialize then mssh cmd hosts -/
  | doMssh (cmd : String) (hosts : List String)
deriving DecidableEq

/-- The usage string printed at line 355. -/
def msshUsage : String := "Usage: mssh <cmd> <server1> [... <serverN>]"

/-- The usage string printed at line 341. -/
def mscpUsage : String := "Usage: mscp <source> <target> <server1> [... <serverN>]"

/-- main (lines 336-368): command is filepath.Base(os.Args[0]) and argv
is the whole os.Args slice (program name included).  The mscp branch
requires len(os.Args) >= 4, the mssh branch len(os.Args) >= 3. -/
def mainDecide (command : String) (argv : List String) : MainAct :=
  if command = "mscp" then
    if argv.length < 4 then MainAct.usageExit mscpUsage 2
    else MainAct.doMscp (argv.getD 1 "") (argv.getD 2 "") (argv.drop 3)
  else
    if argv.length < 3 then MainAct.usageExit msshUsage 2
    else MainAct.doMssh (argv.getD 1 "") (argv.drop 2)

/-- Whether a decision is the usage-and-exit path. -/
def MainAct.isUsage : MainAct → Bool
  | MainAct.usageExit _ _ => true
  | _ => false

/-- Every makeSigner message except the pre-decryption notice of line 143
reports a failure; the notice is printed unconditionally on entry to the
decryption branch, before any fallible stage runs. -/
def isFailureReport : Msg → Bool
  | Msg.encryptedNotice => false
  | _ => true

/-! # Helper lemmas -/

/-- bytesContains agrees with the abstract contiguous-occurrence
predicate. -/
theorem bytesContains_iff_occursIn (b pat : Bytes) :
    bytesContains b pat = true ↔ OccursIn pat b := by
  constructor
  · intro h
    rcases List.any_eq_true.mp h with ⟨i, _, htake⟩
    have htake' : (b.drop i).take pat.length = pat := by
      exact beq_iff_eq.mp htake
    refine ⟨b.take i, (b.drop i).drop pat.length, ?_⟩
    have hsplit : b = b.take i ++ b.drop i := (List.take_append_drop i b).symm
    have hdrop : b.drop i =
        (b.drop i).take pat.length ++ (b.drop i).drop pat.length :=
      (List.take_append_drop pat.length (b.drop i)).symm
    conv_lhs => rw [hsplit, hdrop]
    rw [htake', List.append_assoc]
  · rintro ⟨s, t, rfl⟩
    apply List.any_eq_true.mpr
    refine ⟨s.length, ?_, ?_⟩
    · apply List.mem_range.mpr
      simp only [List.length_append]
      omega
    · have hdrop : (s ++ pat ++ t).drop s.length = pat ++ t := by
        rw [List.append_assoc]
        exact List.drop_left s (pat ++ t)
      rw [hdrop, List.take_left]
      exact beq_iff_eq.mpr rfl

/-- The decryption branch is taken exactly when bytes.Contains finds the
marker. -/
theorem makeSigner_decryptTried {α : Type} (parse : Bytes → Option α)
    (buf : Bytes) (env : DecryptEnv) :
    (makeSigner parse (KeyOpen.content buf) env).decryptTried =
      bytesContains buf encMarker := by
  by_cases hc : bytesContains buf encMarker
  · simp only [makeSigner, hc, if_true]
    split
    · rfl
    · split
      · rfl
      · split
        · rfl
        · split
          · rfl
          · split
            · rfl
            · split
              · rfl
              · split <;> rfl
  · simp only [Bool.not_eq_true] at hc
    simp only [makeSigner, hc, Bool.false_eq_true, if_false]
    split <;> rfl

/-- Folding arrivals whose keys all differ from h leaves the map
unchanged at h. -/
theorem collectFold_not_mem {β : Type} (l : List (String × β))
    (m : String → Option β) (h : String) (hh : h ∉ l.map Prod.fst) :
    l.foldl (fun m p => mapUpd m p.1 p.2) m h = m h := by
  induction l generalizing m with
  | nil => rfl
  | cons p t ih =>
    simp only [List.map_cons, List.mem_cons] at hh
    push_neg at hh
    rw [List.foldl_cons, ih _ hh.2]
    simp [mapUpd, hh.1]

/-- Folding arrivals with pairwise-distinct keys stores each pair's value
at its key. -/
theorem collectFold_mem {β : Type} (l : List (String × β))
    (m : String → Option β) (h : String) (v : β)
    (hnd : (l.map Prod.fst).Nodup) (hmem : (h, v) ∈ l) :
    l.foldl (fun m p => mapUpd m p.1 p.2) m h = some v := by
  induction l generalizing m with
  | nil => cases hmem
  | cons p t ih =>
    simp only [List.map_cons, List.nodup_cons] at hnd
    rcases List.mem_cons.mp hmem with heq | hmemt
    · subst heq
      rw [List.foldl_cons, collectFold_not_mem t _ h hnd.1]
      simp [mapUpd]
    · rw [List.foldl_cons]
      exact ih _ hnd.2 hmemt

/-- The collection loop over any permutation of one pair per distinct
host holds exactly the pair's value at each host and nothing elsewhere. -/
theorem collectLoop_char {β : Type} (f : String → β) (hostnames : List String)
    (arrivals : List (String × β)) (hnd : hostnames.Nodup)
    (hp : arrivals.Perm (hostnames.map (fun h => (h, f h)))) (h : String) :
    collectLoop arrivals h = if h ∈ hostnames then some (f h) else none := by
  have hkeys : (arrivals.map Prod.fst).Perm hostnames := by
    have hm := hp.map Prod.fst
    have hcomp : (Prod.fst ∘ fun h : String => (h, f h)) = id := rfl
    rw [List.map_map, hcomp, List.map_id] at hm
    exact hm
  have hkeysnd : (arrivals.map Prod.fst).Nodup := hkeys.nodup_iff.mpr hnd
  by_cases hmem : h ∈ hostnames
  · have hin : (h, f h) ∈ arrivals := by
      apply hp.mem_iff.mpr
      exact List.mem_map.mpr ⟨h, hmem, rfl⟩
    rw [if_pos hmem]
    exact collectFold_mem arrivals _ h (f h) hkeysnd hin
  · have hout : h ∉ arrivals.map Prod.fst := by
      intro hx
      exact hmem (hkeys.mem_iff.mp hx)
    rw [if_neg hmem]
    exact collectFold_not_mem arrivals _ h hout

/-! # Claims -/

/-- C1: for every list of N distinct hosts, both dispatch operations
(mssh for commands, mscp for uploads) return a result map with exactly
one entry keyed by each requested host and no entry at any other key —
so exactly N entries — for every channel delivery order (any permutation
of the pairs the goroutines send) and regardless of which per-host tasks
succeed or fail (exec and upload are arbitrary). -/
theorem C1_dispatch_result_complete (hostnames : List String)
    (exec : String → String × Option String) (upload : String → Option String)
    (arr1 : List (String × String)) (arr2 : List (String × Option String))
    (hnd : hostnames.Nodup)
    (h1 : arr1.Perm (msshPairs exec hostnames))
    (h2 : arr2.Perm (mscpPairs upload hostnames)) :
    (∀ h, h ∈ hostnames → msshResult arr1 h = some (msshPayload exec h)) ∧
    (∀ h, h ∉ hostnames → msshResult arr1 h = none) ∧
    (∀ h, h ∈ hostnames → mscpResult arr2 h = some (upload h)) ∧
    (∀ h, h ∉ hostnames → mscpResult arr2 h = none) := by
  simp only [msshPairs] at h1
  simp only [mscpPairs] at h2
  refine ⟨?_, ?_, ?_, ?_⟩ <;> intro h hh
  · rw [msshResult, collectLoop_char (msshPayload exec) hostnames arr1 hnd h1 h,
      if_pos hh]
  · rw [msshResult, collectLoop_char (msshPayload exec) hostnames arr1 hnd h1 h,
      if_neg hh]
  · rw [mscpResult, collectLoop_char upload hostnames arr2 hnd h2 h, if_pos hh]
  · rw [mscpResult, collectLoop_char upload hostnames arr2 hnd h2 h, if_neg hh]

/-- C1 witness: hosts a and b, results delivered in reverse order, with
b's upload failing; a's entry is present and an unrequested key is
absent. -/
theorem C1_dispatch_result_complete_witness :
    msshResult [("b", "out"), ("a", "out")] "a" = some "out" ∧
    mscpResult [("b", some "boom"), ("a", none)] "c" = none := by
  have H := C1_dispatch_result_complete ["a", "b"] (fun _ => ("out", none))
    (fun h => if h = "b" then some "boom" else none)
    [("b", "out"), ("a", "out")] [("b", some "boom"), ("a", none)]
    (by decide) (by decide) (by decide)
  exact ⟨H.1 "a" (by decide), H.2.2.2 "c" (by decide)⟩

/-- C4: for every key file routed through the decryption path (its bytes
contain the ENCRYPTED marker), the temporary file does not exist after
makeSigner returns, whatever the outcome of each decryption stage. -/
theorem C4_tmp_file_removed {α : Type} (parse : Bytes → Option α)
    (buf : Bytes) (env : DecryptEnv) (henc : OccursIn encMarker buf) :
    (makeSigner parse (KeyOpen.content buf) env).tmpLeft = false := by
  have hc : bytesContains buf encMarker = true :=
    (bytesContains_iff_occursIn buf encMarker).mpr henc
  simp only [makeSigner, hc, if_true]
  split
  · rfl
  · split
    · rfl
    · split
      · rfl
      · split
        · rfl
        · split
          · rfl
          · split
            · rfl
            · split <;> rfl

/-- C4 witness: a concrete encrypted key file whose decryption run
succeeds end to end still leaves no temporary file behind. -/
theorem C4_tmp_file_removed_witness :
    (makeSigner (fun b => some b) (KeyOpen.content encMarker)
      ⟨true, true, true, some ['X'], true, true⟩).tmpLeft = false :=
  C4_tmp_file_removed (fun b => some b) encMarker
    ⟨true, true, true, some ['X'], true, true⟩ ⟨[], [], by simp⟩

/-- C7: for every key file whose raw bytes do not contain the ENCRYPTED
marker, makeSigner behaves as the direct parse of the original bytes,
unchanged, independently of the decryption environment: the whole
outcome equals an env-free record whose signer is exactly parse buf, no
decryption step is entered, no temporary file is touched, and the only
possible message is the parse diagnostic when parsing fails. -/
theorem C7_unencrypted_parsed_directly {α : Type} (parse : Bytes → Option α)
    (buf : Bytes) (env : DecryptEnv) (henc : ¬ OccursIn encMarker buf) :
    makeSigner parse (KeyOpen.content buf) env =
      ⟨parse buf,
       (match parse buf with
        | none => [Msg.couldNotParseFinal]
        | some _ => []),
       false, false⟩ := by
  have hc : bytesContains buf encMarker = false :=
    Bool.eq_false_iff.mpr (fun h =>
      henc ((bytesContains_iff_occursIn buf encMarker).mp h))
  simp only [makeSigner, hc, Bool.false_eq_true, if_false]
  cases hparse : parse buf <;> simp [hparse]

/-- C7 witness: a one-byte unencrypted key file parses to itself with no
message, no decryption attempted and no temporary file. -/
theorem C7_unencrypted_parsed_directly_witness :
    makeSigner (fun b => some b) (KeyOpen.content ['A'])
      ⟨true, true, true, none, true, true⟩ =
      ⟨some ['A'], [], false, false⟩ :=
  C7_unencrypted_parsed_directly (fun b => some b) ['A']
    ⟨true, true, true, none, true, true⟩
    (fun hocc => absurd ((bytesContains_iff_occursIn ['A'] encMarker).mpr hocc)
      (by decide))

/-- C10: the encryption check of makeSigner is a plain substring test —
the decryption path is entered exactly when the ASCII bytes ENCRYPTED
occur contiguously anywhere in the file contents, whatever the rest of
the file looks like and whatever the decryption environment does. -/
theorem C10_detection_is_substring_test {α : Type} (parse : Bytes → Option α)
    (buf : Bytes) (env : DecryptEnv) :
    (makeSigner parse (KeyOpen.content buf) env).decryptTried = true ↔
      OccursIn encMarker buf := by
  rw [makeSigner_decryptTried]
  exact bytesContains_iff_occursIn buf encMarker

/-- C2 counterexample: in a command run over the two hosts h1 and h2 the
config-construction event fires twice — once per host task, inside
dispatch (getSession passes makeConfig() to ssh.Dial at line 210) — so
the authentication configuration is not constructed exactly once. -/
theorem C2_counterexample :
    configBuildCount (runTrace ["h1", "h2"]) = 2 ∧
    configBuildCount (runTrace ["h1", "h2"]) ≠ 1 := by decide

/-- C2 (amended): the keyring (and user identity) is built exactly once,
at startup, before dispatch begins; the full ClientConfig, including any
agent connection, is then rebuilt by makeConfig once per host task,
during dispatch, whatever order the tasks reach their connection step. -/
theorem C2_keyring_once_config_per_host (hostnames buildOrder : List String)
    (hperm : buildOrder.Perm hostnames) :
    keyringBuildCount (runTrace buildOrder) = 1 ∧
    configBuildCount (runTrace buildOrder) = hostnames.length ∧
    (runTrace buildOrder).take 2 = [Ev.keyringBuilt, Ev.dispatchStarted] := by
  refine ⟨?_, ?_, rfl⟩
  · have hfn : (Ev.isKeyring ∘ Ev.configBuilt) = fun _ => false := rfl
    simp [keyringBuildCount, runTrace, List.countP_cons, List.countP_map,
      hfn, Ev.isKeyring]
  · have hfn : (Ev.isConfig ∘ Ev.configBuilt) = fun _ => true := rfl
    simp [configBuildCount, runTrace, List.countP_cons, List.countP_map,
      hfn, Ev.isConfig, hperm.length_eq]

/-- C2 witness: two hosts whose tasks reach makeConfig in reverse order
still give one keyring build and two config builds. -/
theorem C2_keyring_once_config_per_host_witness :
    keyringBuildCount (runTrace ["h2", "h1"]) = 1 ∧
    configBuildCount (runTrace ["h2", "h1"]) = 2 := by
  have H := C2_keyring_once_config_per_host ["h1", "h2"] ["h2", "h1"]
    (by decide)
  exact ⟨H.1, H.2.1⟩

/-- C3 counterexample: with the agent socket unset and both default key
files absent, the assembled config carries one AuthMethod — a keyring
backed by zero signers — not zero AuthMethods: makeKeyring returns a
non-nil ClientAuth even when no key parsed (its nil branch requires the
literal two-element key list to be empty). -/
theorem C3_counterexample :
    (makeConfig AgentStep.noSock
      (makeKeyring (fun _ => (none : Option Nat))
        ⟨KeyOpen.absent, ⟨true, true, true, none, true, true⟩,
         KeyOpen.absent, ⟨true, true, true, none, true, true⟩⟩)
      "u").auth.length = 1 ∧
    (makeConfig AgentStep.noSock
      (makeKeyring (fun _ => (none : Option Nat))
        ⟨KeyOpen.absent, ⟨true, true, true, none, true, true⟩,
         KeyOpen.absent, ⟨true, true, true, none, true, true⟩⟩)
      "u").auth = [AuthMethod.keyringAuth []] := by decide

/-- C3 (amended): the assembled ClientConfig always contains one or two
AuthMethods, never zero: the keyring ClientAuth is appended even when it
holds no signers.  In the agent-unset, both-keys-absent scenario the
config contains exactly the empty-keyring method. -/
theorem C3_auth_method_count {α : Type} (parse : Bytes → Option α)
    (kenv : KeyringEnv) (agentRes : AgentStep) (user : String) :
    1 ≤ (makeConfig agentRes (makeKeyring parse kenv) user).auth.length ∧
    (makeConfig agentRes (makeKeyring parse kenv) user).auth.length ≤ 2 ∧
    (makeConfig AgentStep.noSock
      (makeKeyring parse
        ⟨KeyOpen.absent, kenv.rsaDec, KeyOpen.absent, kenv.dsaDec⟩)
      user).auth = [AuthMethod.keyringAuth []] := by
  obtain ⟨s, hs⟩ : ∃ s, makeKeyring parse kenv = some s := ⟨_, rfl⟩
  rw [hs]
  refine ⟨?_, ?_, rfl⟩
  · cases agentRes <;> simp [makeConfig]
  · cases agentRes with
    | identities n =>
      by_cases hn : n > 0 <;> simp [makeConfig, hn]
    | noSock => simp [makeConfig]
    | dialFail => simp [makeConfig]
    | identitiesErr => simp [makeConfig]

/-- C5 counterexample: when every decryption stage up to the read-back
succeeds and the final ReadAll of the decrypted temp file fails
(line 171), makeSigner aborts with no failure diagnostic at all — the
only stderr message is the encryption notice printed before the failure
— contradicting the claim that every read-back failure is reported. -/
theorem C5_counterexample :
    (makeSigner (fun _ => (none : Option Bytes)) (KeyOpen.content encMarker)
      ⟨true, true, true, some ['X'], true, false⟩).signer = none ∧
    (makeSigner (fun _ => (none : Option Bytes)) (KeyOpen.content encMarker)
      ⟨true, true, true, some ['X'], true, false⟩).msgs.filter
        isFailureReport = [] := by decide

/-- C5 (amended): every failure on the decryption path aborts that key's
signer acquisition, contributes no Signer and removes the temp file; the
create, write, close, ssh-keygen and reopen failures each report their
own diagnostic, while a failure of the final read-back ReadAll aborts
silently, leaving only the earlier encryption notice. -/
theorem C5_decrypt_failures_abort {α : Type} (parse : Bytes → Option α)
    (buf : Bytes) (env : DecryptEnv) (henc : OccursIn encMarker buf) :
    (env.tmpCreated = false →
      makeSigner parse (KeyOpen.content buf) env =
        ⟨none, [Msg.couldNotCreateTmp], false, true⟩) ∧
    (env.tmpCreated = true → env.writeOk = false →
      makeSigner parse (KeyOpen.content buf) env =
        ⟨none, [Msg.encryptedNotice, Msg.couldNotWriteTmp], false, true⟩) ∧
    (env.tmpCreated = true → env.writeOk = true → env.closeOk = false →
      makeSigner parse (KeyOpen.content buf) env =
        ⟨none, [Msg.encryptedNotice, Msg.couldNotCloseTmp], false, true⟩) ∧
    (env.tmpCreated = true → env.writeOk = true → env.closeOk = true →
      env.keygenOut = none →
      makeSigner parse (KeyOpen.content buf) env =
        ⟨none, [Msg.encryptedNotice, Msg.couldNotDecrypt], false, true⟩) ∧
    (∀ dec, env.tmpCreated = true → env.writeOk = true → env.closeOk = true →
      env.keygenOut = some dec → env.reopenOk = false →
      makeSigner parse (KeyOpen.content buf) env =
        ⟨none, [Msg.encryptedNotice, Msg.cannotOpenBack], false, true⟩) ∧
    (∀ dec, env.tmpCreated = true → env.writeOk = true → env.closeOk = true →
      env.keygenOut = some dec → env.reopenOk = true → env.rereadOk = false →
      makeSigner parse (KeyOpen.content buf) env =
        ⟨none, [Msg.encryptedNotice], false, true⟩) := by
  have hc : bytesContains buf encMarker = true :=
    (bytesContains_iff_occursIn buf encMarker).mpr henc
  refine ⟨?_, ?_, ?_, ?_, ?_, ?_⟩
  · intro h1
    simp [makeSigner, hc, h1]
  · intro h1 h2
    simp [makeSigner, hc, h1, h2, deferredCleanup, osRemove]
  · intro h1 h2 h3
    simp [makeSigner, hc, h1, h2, h3, deferredCleanup, osRemove]
  · intro h1 h2 h3 h4
    simp [makeSigner, hc, h1, h2, h3, h4, deferredCleanup, osRemove]
  · intro dec h1 h2 h3 h4 h5
    simp [makeSigner, hc, h1, h2, h3, h4, h5, deferredCleanup, osRemove]
  · intro dec h1 h2 h3 h4 h5 h6
    simp [makeSigner, hc, h1, h2, h3, h4, h5, h6, deferredCleanup, osRemove]

/-- C5 witness: a concrete encrypted file whose temp-file creation fails
yields exactly the creation diagnostic and no signer. -/
theorem C5_decrypt_failures_abort_witness :
    makeSigner (fun _ => (none : Option Bytes)) (KeyOpen.content encMarker)
      ⟨false, true, true, none, true, true⟩ =
      ⟨none, [Msg.couldNotCreateTmp], false, true⟩ :=
  (C5_decrypt_failures_abort (fun _ => (none : Option Bytes)) encMarker
    ⟨false, true, true, none, true, true⟩ ⟨[], [], by simp⟩).1 rfl

/-- C6 counterexample: an existing key file that is marked ENCRYPTED,
decrypts cleanly, and then fails to parse produces two stderr messages
(the encryption notice and the parse diagnostic), not exactly one. -/
theorem C6_counterexample :
    (makeSigner (fun _ => (none : Option Bytes)) (KeyOpen.content encMarker)
      ⟨true, true, true, some ['X'], true, true⟩).signer = none ∧
    (makeSigner (fun _ => (none : Option Bytes)) (KeyOpen.content encMarker)
      ⟨true, true, true, some ['X'], true, true⟩).msgs.length = 2 := by decide

/-- C6 (amended): a default key file that does not exist contributes
zero Signers and zero diagnostics; one that exists, is not marked
ENCRYPTED, and fails to parse contributes zero Signers and exactly one
diagnostic (a file that goes through decryption first additionally emits
the encryption notice).  The keyring built over an absent id_rsa and
such an unparsable id_dsa is the empty keyring with that single
diagnostic. -/
theorem C6_missing_silent_parse_fail_one_diag {α : Type}
    (parse : Bytes → Option α) (env : DecryptEnv) (buf : Bytes)
    (henc : ¬ OccursIn encMarker buf) (hparse : parse buf = none) :
    makeSigner parse KeyOpen.absent env = ⟨none, [], false, false⟩ ∧
    (makeSigner parse (KeyOpen.content buf) env).signer = none ∧
    (makeSigner parse (KeyOpen.content buf) env).msgs =
      [Msg.couldNotParseFinal] ∧
    makeKeyring parse ⟨KeyOpen.absent, env, KeyOpen.content buf, env⟩ =
      some [] ∧
    makeKeyringMsgs parse ⟨KeyOpen.absent, env, KeyOpen.content buf, env⟩ =
      [Msg.couldNotParseFinal] := by
  have hc : bytesContains buf encMarker = false :=
    Bool.eq_false_iff.mpr (fun h =>
      henc ((bytesContains_iff_occursIn buf encMarker).mp h))
  have hsig : makeSigner parse (KeyOpen.content buf) env =
      ⟨none, [Msg.couldNotParseFinal], false, false⟩ := by
    simp [makeSigner, hc, hparse]
  have habs : makeSigner parse KeyOpen.absent env =
      ⟨none, [], false, false⟩ := rfl
  refine ⟨rfl, ?_, ?_, ?_, ?_⟩
  · rw [hsig]
  · rw [hsig]
  · simp [makeKeyring, habs, hsig]
  · simp [makeKeyringMsgs, habs, hsig]

/-- C6 witness: an absent id_rsa plus an unparsable plain id_dsa give
the empty keyring and exactly the one parse diagnostic. -/
theorem C6_missing_silent_parse_fail_one_diag_witness :
    makeKeyring (fun _ => (none : Option Nat))
      ⟨KeyOpen.absent, ⟨true, true, true, none, true, true⟩,
       KeyOpen.content ['A'], ⟨true, true, true, none, true, true⟩⟩ =
      some [] ∧
    makeKeyringMsgs (fun _ => (none : Option Nat))
      ⟨KeyOpen.absent, ⟨true, true, true, none, true, true⟩,
       KeyOpen.content ['A'], ⟨true, true, true, none, true, true⟩⟩ =
      [Msg.couldNotParseFinal] := by
  have H := C6_missing_silent_parse_fail_one_diag (fun _ => (none : Option Nat))
    ⟨true, true, true, none, true, true⟩ ['A']
    (fun hocc => absurd ((bytesContains_iff_occursIn ['A'] encMarker).mpr hocc)
      (by decide)) rfl
  exact ⟨H.2.2.2.1, H.2.2.2.2⟩

/-- C8 counterexample: a negative index is outside the keyring's bounds
but is not a no-op — the guard only checks the upper bound, so the slice
access panics (modelled as none) instead of returning zero values. -/
theorem C8_counterexample :
    containerKey [] (-1) = none ∧
    containerSign [] (-1) 0 [] = none := by decide

/-- C8 (amended): for every index at or beyond the keyring's length at
call time, Key and Sign are no-ops returning Go zero values and a nil
error, never failing; only negative indices escape the guard. -/
theorem C8_beyond_length_noop (signers : List KeySigner) (i : Int)
    (h : (signers.length : Int) ≤ i) (rnd : Nat) (data : List Nat) :
    containerKey signers i = some (none, none) ∧
    containerSign signers i rnd data = some (none, none) := by
  constructor
  · simp [containerKey, h]
  · simp [containerSign, h]

/-- C8 witness: index 3 on the empty keyring is a no-op for both Key and
Sign. -/
theorem C8_beyond_length_noop_witness :
    containerKey [] 3 = some (none, none) ∧
    containerSign [] 3 0 [] = some (none, none) :=
  C8_beyond_length_noop [] 3 (by decide) 0 []

/-- C9 counterexample: invoked as a command-runner with one host
argument — fewer than the two the claim requires — the program does not
print usage or exit: it dispatches the command to that single host
(main only requires len(os.Args) >= 3, i.e. a command plus one host). -/
theorem C9_counterexample :
    mainDecide "mssh" ["mssh", "echo", "h1"] =
      MainAct.doMssh "echo" ["h1"] ∧
    (mainDecide "mssh" ["mssh", "echo", "h1"]).isUsage = false := by decide

/-- C9 (amended): invoked as a command-runner with fewer than two
arguments after the program name (missing the command or the first
host), main prints the usage string to standard error and exits with
code 2, performing no dispatch; with a command and at least one host it
dispatches to all listed hosts. -/
theorem C9_usage_needs_command_and_one_host (command : String)
    (argv : List String) (hcmd : command ≠ "mscp") :
    (argv.length < 3 →
      mainDecide command argv = MainAct.usageExit msshUsage 2) ∧
    (3 ≤ argv.length →
      mainDecide command argv =
        MainAct.doMssh (argv.getD 1 "") (argv.drop 2)) := by
  constructor
  · intro hlen
    simp [mainDecide, hcmd, hlen]
  · intro hlen
    have hlt : ¬ argv.length < 3 := by omega
    simp [mainDecide, hcmd, hlt]

/-- C9 witness: a program name other than mscp with only a command and
no host prints the mssh usage and exits 2. -/
theorem C9_usage_needs_command_and_one_host_witness :
    mainDecide "mssh" ["mssh", "echo"] = MainAct.usageExit msshUsage 2 :=
  (C9_usage_needs_command_and_one_host "mssh" ["mssh", "echo"]
    (by decide)).1 (by decide)

end GoSSHa
